import Mathlib

/-!
Verification of the throttled, retrying streaming client of
`Legal_Agent_Interface.py`, and of the `detect_language` routers of
`KenAgent_Draft_workflow.py` and `KenAgent_Draft_workflow_Translation.py`.

Python strings are modelled as `List Char` (sequences of code points);
wall-clock time and delays are modelled as rationals, with `time.sleep d`
advancing time by exactly `d`.  `random.random()` is modelled as a
parameter `u` with `0 ≤ u < 1`.
-/

namespace LegalAgentInterface

/-- `MIN_SECONDS_BETWEEN_REQUESTS = 2.5` (config constant). -/
def MIN_SECONDS_BETWEEN_REQUESTS : ℚ := 5 / 2

/-- `MAX_RETRIES_429 = 6` (config constant). -/
def MAX_RETRIES_429 : ℕ := 6

/-- Substring containment on code-point sequences: `containsSub pat s`
models Python's `pat in s` for strings. -/
def containsSub (pat : List Char) : List Char → Bool
  | [] => pat.isEmpty
  | c :: rest => pat.isPrefixOf (c :: rest) || containsSub pat rest

/-- Char-wise lowering, modelling `str.lower()` on the alphabets used here. -/
def str_lower (s : List Char) : List Char := s.map Char.toLower

/-- `is_rate_limit_error(e)` from the source:
`return "429" in str(e) or "rate" in str(e).lower()`.
The argument is the text representation `str(e)` of the error. -/
def is_rate_limit_error (e : List Char) : Bool :=
  containsSub "429".toList e || containsSub "rate".toList (str_lower e)

/-- `backoff_sleep(attempt)` from the source computes
`delay = min(20, 0.8 * 2**attempt); delay *= (0.75 + random.random() * 0.5)`
and sleeps for `delay`.  `u` models the `random.random()` draw. -/
def backoff_delay (attempt : ℕ) (u : ℚ) : ℚ :=
  (min 20 ((4 / 5) * 2 ^ attempt)) * (3 / 4 + u * (1 / 2))

/-- One streamed event: `type` models `getattr(event, "type", None)`
(`none` when the attribute is absent), `delta` models `event.delta`. -/
structure Event where
  type : Option (List Char)
  delta : List Char
deriving DecidableEq

/-- The event-type discriminator the client filters for. -/
def OUTPUT_TEXT_DELTA : List Char := "response.output_text.delta".toList

/-- The body of `for event in stream: if getattr(event, "type", None) ==
"response.output_text.delta": yield event.delta`. -/
def extract_deltas (events : List Event) : List (List Char) :=
  events.filterMap fun ev =>
    if ev.type = some OUTPUT_TEXT_DELTA then some ev.delta else none

/-- Outcome of one `openai_client.responses.create(...)` attempt together
with the iteration of its stream: either the whole attempt raises an
exception whose text is `e`, or the stream completes delivering `events`.
`dur` is the wall-clock time the attempt consumes. -/
inductive AttemptOutcome where
  | fail (e : List Char) (dur : ℚ)
  | ok (events : List Event) (dur : ℚ)
deriving DecidableEq

/-- How the retry loop of `stream_agent` ends: the stream completed, or an
exception was re-raised to the caller. -/
inductive LoopOutcome where
  | success
  | raised (e : List Char)
deriving DecidableEq

/-- Observable trace of the retry loop: fragments yielded, how it ended,
the times each network request was issued, the backoff sleeps performed,
and the time when the loop finished. -/
structure AttResult where
  frags : List (List Char)
  outcome : LoopOutcome
  requests : List ℚ
  backoffSleeps : List ℚ
  endTime : ℚ
deriving DecidableEq

/-- The retry loop `for attempt in range(MAX_RETRIES_429 + 1): ...` of
`stream_agent`.  `outcomes n` is the result of the `n`-th `create` call of
this invocation, `us n` the `random.random()` draw of the `n`-th backoff.
`fuel` only bounds the recursion; the loop is entered with
`fuel = MAX_RETRIES_429 + 1` and the guard `attempt < MAX_RETRIES_429`
makes the `fuel = 0` branch unreachable. -/
def run_attempts (outcomes : ℕ → AttemptOutcome) (us : ℕ → ℚ) :
    ℕ → ℕ → ℚ → AttResult
  | 0, _, t => ⟨[], .raised [], [], [], t⟩
  | fuel + 1, attempt, t =>
    match outcomes attempt with
    | .ok events dur =>
      ⟨extract_deltas events, .success, [t], [], t + dur⟩
    | .fail e dur =>
      if is_rate_limit_error e = true ∧ attempt < MAX_RETRIES_429 then
        let d := backoff_delay attempt (us attempt)
        let r := run_attempts outcomes us fuel (attempt + 1) (t + dur + d)
        ⟨r.frags, r.outcome, t :: r.requests, d :: r.backoffSleeps, r.endTime⟩
      else
        ⟨[], .raised e, [t], [], t + dur⟩

/-- The per-session state `st.session_state` as far as `stream_agent`
touches it: the `in_flight` flag and the `last_request` timestamp. -/
structure SessionState where
  in_flight : Bool
  last_request : Option ℚ
deriving DecidableEq

/-- `throttle_guard()` from the source: given the current time `t` and the
stored `last_request`, returns the pacing sleeps performed (empty or a
single positive wait) and the time at which it finishes — which is also
the value it stores into `last_request`. -/
def throttle_guard (t : ℚ) (last : Option ℚ) : List ℚ × ℚ :=
  match last with
  | none => ([], t)
  | some l =>
    if t - l < MIN_SECONDS_BETWEEN_REQUESTS then
      ([MIN_SECONDS_BETWEEN_REQUESTS - (t - l)], l + MIN_SECONDS_BETWEEN_REQUESTS)
    else ([], t)

/-- How a call to `stream_agent` ends, as observed by its consumer:
`busy` models the early-return path that calls
`st.warning("Request already running")` and yields nothing; `success`
carries the yielded fragments; `raised` an exception propagated out. -/
inductive CallResult where
  | busy
  | success (frags : List (List Char))
  | raised (e : List Char)
deriving DecidableEq

/-- Observable trace of one `stream_agent` call. -/
structure CallTrace where
  result : CallResult
  state : SessionState
  requests : List ℚ
  pacingSleeps : List ℚ
  backoffSleeps : List ℚ
  endTime : ℚ
deriving DecidableEq

/-- `stream_agent(agent_name, conv_id, text)` from the source, as a
function of the session state `s`, the call time `t`, and the remote
behaviour (`outcomes`, `us`).  The `finally` clause always clears
`in_flight`; `last_request` is the time `throttle_guard` finished. -/
def stream_agent (outcomes : ℕ → AttemptOutcome) (us : ℕ → ℚ)
    (s : SessionState) (t : ℚ) : CallTrace :=
  if s.in_flight then ⟨.busy, s, [], [], [], t⟩
  else
    let p := throttle_guard t s.last_request
    let r := run_attempts outcomes us (MAX_RETRIES_429 + 1) 0 p.2
    ⟨match r.outcome with
      | .success => .success r.frags
      | .raised e => .raised e,
     ⟨false, some p.2⟩, r.requests, p.1, r.backoffSleeps, r.endTime⟩

end LegalAgentInterface

namespace KenAgentDraft

/-- `detect_language` from `KenAgent_Draft_workflow.py`:
`return "arabic" if any('\u0600' <= c <= '\u06FF' for c in text) else "english"`. -/
def detect_language (text : List Char) : List Char :=
  if text.any (fun c => decide ('\u0600' ≤ c) && decide (c ≤ '\u06FF')) then
    "arabic".toList
  else "english".toList

end KenAgentDraft

namespace KenAgentTranslation

/-- `detect_language` from `KenAgent_Draft_workflow_Translation.py`:
`return "ar" if any('\u0600' <= c <= '\u06FF' for c in text) else "en"`. -/
def detect_language (text : List Char) : List Char :=
  if text.any (fun c => decide ('\u0600' ≤ c) && decide (c ≤ '\u06FF')) then
    "ar".toList
  else "en".toList

end KenAgentTranslation

namespace LegalAgentInterface

/-- Every entered iteration of the retry loop issues its request at the
current time: the request-time trace starts with `t`. -/
theorem run_attempts_requests_head (outcomes : ℕ → AttemptOutcome)
    (us : ℕ → ℚ) (fuel a : ℕ) (t : ℚ) :
    ∃ rest, (run_attempts outcomes us (fuel + 1) a t).requests = t :: rest := by
  cases houtcome : outcomes a with
  | ok events dur => exact ⟨[], by simp [run_attempts, houtcome]⟩
  | fail e dur =>
    by_cases hc : is_rate_limit_error e = true ∧ a < MAX_RETRIES_429
    · refine ⟨(run_attempts outcomes us fuel (a + 1)
        (t + dur + backoff_delay a (us a))).requests, ?_⟩
      simp [run_attempts, houtcome, hc]
    · exact ⟨[], by simp [run_attempts, houtcome, hc]⟩

/-- If attempts `a, a+1, …, a+k-1` raise rate-limit errors and attempt
`a+k` succeeds with `events`, with `a+k` within the retry budget, then the
loop issues exactly `k+1` requests, ends successfully, and yields the
deltas of `events`. -/
theorem run_attempts_ok (outcomes : ℕ → AttemptOutcome) (us : ℕ → ℚ)
    (k : ℕ) (fuel a : ℕ) (t : ℚ) (events : List Event) (dur : ℚ)
    (hfail : ∀ i < k, ∃ e d, outcomes (a + i) = .fail e d ∧
      is_rate_limit_error e = true)
    (hok : outcomes (a + k) = .ok events dur)
    (hak : a + k ≤ MAX_RETRIES_429) (hfuel : k < fuel) :
    (run_attempts outcomes us fuel a t).outcome = .success ∧
    (run_attempts outcomes us fuel a t).frags = extract_deltas events ∧
    (run_attempts outcomes us fuel a t).requests.length = k + 1 := by
  induction k generalizing fuel a t with
  | zero =>
    cases fuel with
    | zero => omega
    | succ f =>
      simp only [Nat.add_zero] at hok
      simp [run_attempts, hok]
  | succ k ih =>
    cases fuel with
    | zero => omega
    | succ f =>
      obtain ⟨e, d, hfe, hre⟩ := hfail 0 (Nat.succ_pos k)
      simp only [Nat.add_zero] at hfe
      have ha : a < MAX_RETRIES_429 := by omega
      have hrec := ih f (a + 1) (t + d + backoff_delay a (us a))
        (fun i hi => by
          obtain ⟨e', d', h1, h2⟩ := hfail (i + 1) (by omega)
          exact ⟨e', d', by rw [show a + 1 + i = a + (i + 1) by omega]; exact h1, h2⟩)
        (by rw [show a + 1 + k = a + (k + 1) by omega]; exact hok)
        (by omega) (by omega)
      simp [run_attempts, hfe, hre, ha, hrec.1, hrec.2.1, hrec.2.2]

/-- If every attempt from `a` through `MAX_RETRIES_429` raises a
rate-limit error, the loop issues exactly `MAX_RETRIES_429 + 1 - a`
requests and re-raises the error of the last attempt. -/
theorem run_attempts_exhaust (outcomes : ℕ → AttemptOutcome) (us : ℕ → ℚ)
    (errs : ℕ → List Char) (fuel a : ℕ) (t : ℚ)
    (hfail : ∀ i, a ≤ i → i ≤ MAX_RETRIES_429 → ∃ d,
      outcomes i = .fail (errs i) d ∧ is_rate_limit_error (errs i) = true)
    (ha : a ≤ MAX_RETRIES_429) (hfuel : MAX_RETRIES_429 - a < fuel) :
    (run_attempts outcomes us fuel a t).outcome =
      .raised (errs MAX_RETRIES_429) ∧
    (run_attempts outcomes us fuel a t).requests.length =
      MAX_RETRIES_429 + 1 - a := by
  induction fuel generalizing a t with
  | zero => omega
  | succ f ih =>
    obtain ⟨d, hfe, hre⟩ := hfail a le_rfl ha
    by_cases hlt : a < MAX_RETRIES_429
    · have hrec := ih (a + 1) (t + d + backoff_delay a (us a))
        (fun i h1 h2 => hfail i (by omega) h2) (by omega) (by omega)
      simpa [run_attempts, hfe, hre, hlt, hrec.1] using by omega
    · have haeq : a = MAX_RETRIES_429 := by omega
      subst haeq
      simp [run_attempts, hfe, hre]
end LegalAgentInterface

namespace LegalAgentInterface

/-- A rate-limit error text and a fatal error text, used as concrete
witness inputs. -/
def rlErr : List Char := "HTTP 429 Too Many Requests".toList

def fatalErr : List Char := "invalid request body".toList

/-- Concrete stream used by witnesses: two text deltas interleaved with
other event types. -/
def sampleEvents : List Event :=
  [⟨some OUTPUT_TEXT_DELTA, "Hello ".toList⟩,
   ⟨some "response.completed".toList, [] ⟩,
   ⟨some OUTPUT_TEXT_DELTA, "world".toList⟩,
   ⟨none, "ignored".toList⟩]

/-- Remote behaviour that rate-limits once and then succeeds. -/
def oneRetryOutcomes : ℕ → AttemptOutcome := fun n =>
  if n = 0 then .fail rlErr 1 else .ok sampleEvents 2

/-- Remote behaviour that rate-limits on every attempt. -/
def allFailOutcomes : ℕ → AttemptOutcome := fun _ => .fail rlErr 1

/-- Remote behaviour that fails fatally on the first attempt. -/
def fatalOutcomes : ℕ → AttemptOutcome := fun _ => .fail fatalErr 1

/-- Random draws all zero. -/
def zeroUs : ℕ → ℚ := fun _ => 0

/-- C1: if the remote call rejects with a rate-limit error exactly `k`
times (`k ≤ MAX_RETRIES_429`) and then succeeds, `stream_agent` performs
exactly `k + 1` network attempts and yields the successful stream's text
fragments in order. -/
theorem stream_agent_retry_then_success (outcomes : ℕ → AttemptOutcome)
    (us : ℕ → ℚ) (s : SessionState) (t : ℚ) (k : ℕ) (events : List Event)
    (dur : ℚ) (hflag : s.in_flight = false) (hk : k ≤ MAX_RETRIES_429)
    (hfail : ∀ i < k, ∃ e d, outcomes i = .fail e d ∧
      is_rate_limit_error e = true)
    (hok : outcomes k = .ok events dur) :
    (stream_agent outcomes us s t).requests.length = k + 1 ∧
    (stream_agent outcomes us s t).result = .success (extract_deltas events) := by
  have h := run_attempts_ok outcomes us k (MAX_RETRIES_429 + 1) 0
    (throttle_guard t s.last_request).2 events dur
    (by simpa using hfail) (by simpa using hok) (by omega) (by omega)
  constructor
  · simp only [stream_agent, hflag, Bool.false_eq_true, if_false]
    exact h.2.2
  · simp only [stream_agent, hflag, Bool.false_eq_true, if_false]
    rw [h.1, h.2.1]

/-- Witness for C1 at a concrete input: one rate-limit rejection, then a
successful stream. -/
theorem stream_agent_retry_then_success_witness :
    (stream_agent oneRetryOutcomes zeroUs ⟨false, none⟩ 0).requests.length = 1 + 1 ∧
    (stream_agent oneRetryOutcomes zeroUs ⟨false, none⟩ 0).result =
      .success (extract_deltas sampleEvents) :=
  stream_agent_retry_then_success oneRetryOutcomes zeroUs ⟨false, none⟩ 0 1
    sampleEvents 2 rfl (by decide)
    (fun i hi => ⟨rlErr, 1, by
      have h0 : i = 0 := by omega
      subst h0
      exact ⟨rfl, by decide⟩⟩)
    rfl

/-- C3: if the remote call rejects with a rate-limit error on every
attempt, `stream_agent` performs exactly `MAX_RETRIES_429 + 1` attempts
and re-raises the last rate-limit error to the caller. -/
theorem stream_agent_retry_exhaustion (outcomes : ℕ → AttemptOutcome)
    (us : ℕ → ℚ) (s : SessionState) (t : ℚ) (errs : ℕ → List Char)
    (hflag : s.in_flight = false)
    (hfail : ∀ i ≤ MAX_RETRIES_429, ∃ d,
      outcomes i = .fail (errs i) d ∧ is_rate_limit_error (errs i) = true) :
    (stream_agent outcomes us s t).requests.length = MAX_RETRIES_429 + 1 ∧
    (stream_agent outcomes us s t).result = .raised (errs MAX_RETRIES_429) := by
  have h := run_attempts_exhaust outcomes us errs (MAX_RETRIES_429 + 1) 0
    (throttle_guard t s.last_request).2
    (fun i _ h2 => hfail i h2) (by omega) (by omega)
  constructor
  · simp only [stream_agent, hflag, Bool.false_eq_true, if_false]
    rw [h.2]
    omega
  · simp only [stream_agent, hflag, Bool.false_eq_true, if_false]
    rw [h.1]

/-- Constant error trace used by the C3 witness. -/
def constErrs : ℕ → List Char := fun _ => rlErr

/-- Witness for C3 at a concrete input: every attempt rate-limited. -/
theorem stream_agent_retry_exhaustion_witness :
    (stream_agent allFailOutcomes zeroUs ⟨false, none⟩ 0).requests.length =
      MAX_RETRIES_429 + 1 ∧
    (stream_agent allFailOutcomes zeroUs ⟨false, none⟩ 0).result =
      .raised (constErrs MAX_RETRIES_429) :=
  stream_agent_retry_exhaustion allFailOutcomes zeroUs ⟨false, none⟩ 0
    constErrs rfl
    (fun i _ => ⟨1, rfl, by
      show is_rate_limit_error rlErr = true
      decide⟩)

/-- C4: if the first attempt fails with an error not classified as a
rate-limit error, `stream_agent` performs exactly one attempt, performs no
backoff wait, and propagates that error unchanged. -/
theorem stream_agent_fatal_first_attempt (outcomes : ℕ → AttemptOutcome)
    (us : ℕ → ℚ) (s : SessionState) (t : ℚ) (e : List Char) (d : ℚ)
    (hflag : s.in_flight = false) (hfe : outcomes 0 = .fail e d)
    (hre : is_rate_limit_error e = false) :
    (stream_agent outcomes us s t).requests.length = 1 ∧
    (stream_agent outcomes us s t).backoffSleeps = [] ∧
    (stream_agent outcomes us s t).result = .raised e := by
  have hcond : ¬ (is_rate_limit_error e = true ∧ 0 < MAX_RETRIES_429) := by
    simp [hre]
  simp [stream_agent, hflag, run_attempts, hfe, hcond]

/-- Witness for C4 at a concrete input: a fatal first failure. -/
theorem stream_agent_fatal_first_attempt_witness :
    (stream_agent fatalOutcomes zeroUs ⟨false, none⟩ 0).requests.length = 1 ∧
    (stream_agent fatalOutcomes zeroUs ⟨false, none⟩ 0).backoffSleeps = [] ∧
    (stream_agent fatalOutcomes zeroUs ⟨false, none⟩ 0).result = .raised fatalErr :=
  stream_agent_fatal_first_attempt fatalOutcomes zeroUs ⟨false, none⟩ 0
    fatalErr 1 rfl rfl (by decide)

/-- C5: a call made while the in-flight flag is set takes the busy path
(the `st.warning` early return), performs zero network requests, zero
pacing and backoff waits, and leaves the session state — in particular
the throttle timestamp — unchanged. -/
theorem stream_agent_busy (outcomes : ℕ → AttemptOutcome) (us : ℕ → ℚ)
    (s : SessionState) (t : ℚ) (h : s.in_flight = true) :
    (stream_agent outcomes us s t).result = .busy ∧
    (stream_agent outcomes us s t).requests = [] ∧
    (stream_agent outcomes us s t).pacingSleeps = [] ∧
    (stream_agent outcomes us s t).backoffSleeps = [] ∧
    (stream_agent outcomes us s t).state = s := by
  simp [stream_agent, h]

/-- Witness for C5 at a concrete input. -/
theorem stream_agent_busy_witness :
    (stream_agent oneRetryOutcomes zeroUs ⟨true, some 5⟩ 7).result = .busy ∧
    (stream_agent oneRetryOutcomes zeroUs ⟨true, some 5⟩ 7).requests = [] ∧
    (stream_agent oneRetryOutcomes zeroUs ⟨true, some 5⟩ 7).pacingSleeps = [] ∧
    (stream_agent oneRetryOutcomes zeroUs ⟨true, some 5⟩ 7).backoffSleeps = [] ∧
    (stream_agent oneRetryOutcomes zeroUs ⟨true, some 5⟩ 7).state = ⟨true, some 5⟩ :=
  stream_agent_busy oneRetryOutcomes zeroUs ⟨true, some 5⟩ 7 rfl

/-- C6: every call that acquires the in-flight flag (entered with the
flag clear) ends with the flag clear again, on every exit path of the
`try/finally`; a call that finds the flag set does not acquire it and
leaves the state untouched, so in this sequential model at most one call
holds the flag at a time. -/
theorem stream_agent_in_flight_cleared (outcomes : ℕ → AttemptOutcome)
    (us : ℕ → ℚ) (s : SessionState) (t : ℚ) (h : s.in_flight = false) :
    (stream_agent outcomes us s t).state.in_flight = false := by
  simp [stream_agent, h]

/-- Witness for C6 at a concrete input (an exhausting-retries call). -/
theorem stream_agent_in_flight_cleared_witness :
    (stream_agent allFailOutcomes zeroUs ⟨false, some 3⟩ 4).state.in_flight = false :=
  stream_agent_in_flight_cleared allFailOutcomes zeroUs ⟨false, some 3⟩ 4 rfl

end LegalAgentInterface

namespace LegalAgentInterface

/-- A list of request-issue times respects the pacing invariant when every
two of them (in trace order) are at least the minimum interval apart. -/
def wellSpaced (ts : List ℚ) : Prop :=
  List.Pairwise (fun a b => MIN_SECONDS_BETWEEN_REQUESTS ≤ b - a) ts

/-- Remote behaviour for the C2 counterexample: an instantaneous
rate-limit rejection, then an instantaneous success. -/
def c2Outcomes : ℕ → AttemptOutcome := fun n =>
  if n = 0 then .fail "429".toList 0 else .ok [] 0

/-- C2 counterexample: with one instantaneous rate-limit rejection and the
smallest jitter draw, `stream_agent` issues its first request at time `0`
and the retried request at time `3/5` — only `0.6` time-units later, which
is less than `MIN_SECONDS_BETWEEN_REQUESTS = 2.5`.  The retry loop paces
re-issued requests by the backoff delay only, and `last_request` is not
re-recorded for them. -/
theorem stream_agent_spacing_counterexample :
    (stream_agent c2Outcomes zeroUs ⟨false, none⟩ 0).requests = [0, 3 / 5] ∧
    ¬ wellSpaced (stream_agent c2Outcomes zeroUs ⟨false, none⟩ 0).requests := by
  have hr : (stream_agent c2Outcomes zeroUs ⟨false, none⟩ 0).requests = [0, 3 / 5] := by
    simp [stream_agent, run_attempts, throttle_guard, c2Outcomes, zeroUs,
      backoff_delay, MAX_RETRIES_429, is_rate_limit_error, containsSub, str_lower]
    norm_num
  refine ⟨hr, ?_⟩
  rw [hr]
  intro hp
  rw [wellSpaced, List.pairwise_cons] at hp
  have := hp.1 (3 / 5) (by simp)
  rw [MIN_SECONDS_BETWEEN_REQUESTS] at this
  norm_num at this

/-- The time `throttle_guard` finishes (and records) is at least the
minimum interval after the stored last-request time. -/
theorem throttle_guard_spacing (t l : ℚ) :
    l + MIN_SECONDS_BETWEEN_REQUESTS ≤ (throttle_guard t (some l)).2 := by
  rw [throttle_guard]
  split
  · exact le_rfl
  · linarith [not_lt.mp (by assumption : ¬ t - l < MIN_SECONDS_BETWEEN_REQUESTS)]

/-- A non-busy call issues its first request at the time `throttle_guard`
finished, and records exactly that time as `last_request`. -/
theorem stream_agent_first_request (outcomes : ℕ → AttemptOutcome)
    (us : ℕ → ℚ) (s : SessionState) (t : ℚ) (h : s.in_flight = false) :
    (stream_agent outcomes us s t).state =
      ⟨false, some (throttle_guard t s.last_request).2⟩ ∧
    ∃ rest, (stream_agent outcomes us s t).requests =
      (throttle_guard t s.last_request).2 :: rest := by
  obtain ⟨rest, hrest⟩ := run_attempts_requests_head outcomes us
    MAX_RETRIES_429 0 (throttle_guard t s.last_request).2
  refine ⟨by simp [stream_agent, h], rest, ?_⟩
  simp only [stream_agent, h, Bool.false_eq_true, if_false]
  exact hrest

/-- C2 amended: across two consecutive calls, the *first* requests are at
least `MIN_SECONDS_BETWEEN_REQUESTS` apart, and `last_request` is recorded
at the moment the first request of a call is issued (the end of the pacing
wait), not at call entry; only requests re-issued by the retry loop escape
the pacing bound. -/
theorem stream_agent_first_request_spacing (o1 o2 : ℕ → AttemptOutcome)
    (u1 u2 : ℕ → ℚ) (s : SessionState) (t t2 : ℚ)
    (hflag : s.in_flight = false) :
    (stream_agent o1 u1 s t).requests ≠ [] ∧
    (stream_agent o2 u2 (stream_agent o1 u1 s t).state t2).requests ≠ [] ∧
    (stream_agent o1 u1 s t).state.last_request =
      some ((stream_agent o1 u1 s t).requests.headI) ∧
    MIN_SECONDS_BETWEEN_REQUESTS ≤
      (stream_agent o2 u2 (stream_agent o1 u1 s t).state t2).requests.headI -
        (stream_agent o1 u1 s t).requests.headI := by
  obtain ⟨hst1, rest1, hr1⟩ := stream_agent_first_request o1 u1 s t hflag
  have hflag2 : (stream_agent o1 u1 s t).state.in_flight = false := by
    rw [hst1]
  obtain ⟨hst2, rest2, hr2⟩ :=
    stream_agent_first_request o2 u2 (stream_agent o1 u1 s t).state t2 hflag2
  have hlast : (stream_agent o1 u1 s t).state.last_request =
      some (throttle_guard t s.last_request).2 := by rw [hst1]
  refine ⟨by rw [hr1]; simp, by rw [hr2]; simp, ?_, ?_⟩
  · rw [hr1, hlast]
    simp
  · rw [hr1, hr2, hlast]
    simp only [List.headI_cons]
    have := throttle_guard_spacing t2 (throttle_guard t s.last_request).2
    linarith

/-- Witness for the amended C2 at a concrete input. -/
theorem stream_agent_first_request_spacing_witness :
    (stream_agent c2Outcomes zeroUs ⟨false, none⟩ 0).requests ≠ [] ∧
    (stream_agent c2Outcomes zeroUs
      (stream_agent c2Outcomes zeroUs ⟨false, none⟩ 0).state 1).requests ≠ [] ∧
    (stream_agent c2Outcomes zeroUs ⟨false, none⟩ 0).state.last_request =
      some ((stream_agent c2Outcomes zeroUs ⟨false, none⟩ 0).requests.headI) ∧
    MIN_SECONDS_BETWEEN_REQUESTS ≤
      (stream_agent c2Outcomes zeroUs
        (stream_agent c2Outcomes zeroUs ⟨false, none⟩ 0).state 1).requests.headI -
        (stream_agent c2Outcomes zeroUs ⟨false, none⟩ 0).requests.headI :=
  stream_agent_first_request_spacing c2Outcomes c2Outcomes zeroUs zeroUs
    ⟨false, none⟩ 0 1 rfl

/-- C7: for every attempt `n` and every draw `u` of `random.random()`, the
backoff delay lies in `[0.75 * min(20, 0.8 * 2^n), 1.25 * min(20, 0.8 * 2^n)]`,
and in particular never exceeds `25` time-units. -/
theorem backoff_delay_bounds (n : ℕ) (u : ℚ) (h0 : 0 ≤ u) (h1 : u < 1) :
    (3 / 4) * min 20 ((4 / 5) * 2 ^ n) ≤ backoff_delay n u ∧
    backoff_delay n u ≤ (5 / 4) * min 20 ((4 / 5) * 2 ^ n) ∧
    backoff_delay n u ≤ 25 := by
  have hm0 : (0 : ℚ) ≤ min 20 ((4 / 5) * 2 ^ n) :=
    le_min (by norm_num) (by positivity)
  have hm20 : min 20 ((4 / 5) * 2 ^ n) ≤ (20 : ℚ) := min_le_left _ _
  rw [backoff_delay]
  refine ⟨?_, ?_, ?_⟩
  · nlinarith [mul_nonneg hm0 h0]
  · nlinarith [mul_nonneg hm0 (by linarith : (0 : ℚ) ≤ 1 - u)]
  · have hj : 3 / 4 + u * (1 / 2) ≤ 5 / 4 := by linarith
    have hj0 : (0 : ℚ) ≤ 3 / 4 + u * (1 / 2) := by linarith
    have hb := mul_le_mul hm20 hj hj0 (by norm_num : (0 : ℚ) ≤ 20)
    linarith

/-- Witness for C7 at `n = 0`, `u = 0`. -/
theorem backoff_delay_bounds_witness :
    (0 : ℚ) ≤ 0 ∧ (0 : ℚ) < 1 ∧
    ((3 / 4) * min 20 ((4 / 5) * 2 ^ (0 : ℕ)) ≤ backoff_delay 0 0 ∧
     backoff_delay 0 0 ≤ (5 / 4) * min 20 ((4 / 5) * 2 ^ (0 : ℕ)) ∧
     backoff_delay 0 0 ≤ 25) :=
  ⟨le_rfl, by norm_num, backoff_delay_bounds 0 0 le_rfl (by norm_num)⟩

/-- The yielded deltas are exactly the `delta` fields of the events whose
`type` is the output-text-delta discriminator, in order. -/
theorem extract_deltas_eq_filter (events : List Event) :
    extract_deltas events =
      (events.filter fun ev => decide (ev.type = some OUTPUT_TEXT_DELTA)).map
        Event.delta := by
  induction events with
  | nil => rfl
  | cons ev rest ih =>
    simp only [extract_deltas] at ih ⊢
    by_cases h : ev.type = some OUTPUT_TEXT_DELTA <;>
      simp [List.filterMap_cons, List.filter_cons, h, ih]

/-- Remote behaviour that succeeds immediately with `sampleEvents`. -/
def okOutcomes : ℕ → AttemptOutcome := fun _ => .ok sampleEvents 2

/-- C8: on a successful stream, `stream_agent` yields exactly the delta
payloads of the output-text-delta events, in arrival order, ignoring all
other event types; concatenating the yielded fragments equals the
concatenation of those payloads. -/
theorem stream_agent_success_deltas (outcomes : ℕ → AttemptOutcome)
    (us : ℕ → ℚ) (s : SessionState) (t : ℚ) (events : List Event) (dur : ℚ)
    (hflag : s.in_flight = false) (hok : outcomes 0 = .ok events dur) :
    (stream_agent outcomes us s t).result = .success
      ((events.filter fun ev => decide (ev.type = some OUTPUT_TEXT_DELTA)).map
        Event.delta) ∧
    (extract_deltas events).flatten =
      ((events.filter fun ev => decide (ev.type = some OUTPUT_TEXT_DELTA)).map
        Event.delta).flatten := by
  constructor
  · simp [stream_agent, hflag, run_attempts, hok, extract_deltas_eq_filter]
  · rw [extract_deltas_eq_filter]

/-- Witness for C8 at a concrete stream. -/
theorem stream_agent_success_deltas_witness :
    (stream_agent okOutcomes zeroUs ⟨false, none⟩ 0).result = .success
      ((sampleEvents.filter fun ev =>
        decide (ev.type = some OUTPUT_TEXT_DELTA)).map Event.delta) ∧
    (extract_deltas sampleEvents).flatten =
      ((sampleEvents.filter fun ev =>
        decide (ev.type = some OUTPUT_TEXT_DELTA)).map Event.delta).flatten :=
  stream_agent_success_deltas okOutcomes zeroUs ⟨false, none⟩ 0
    sampleEvents 2 rfl rfl

end LegalAgentInterface

namespace LegalAgentInterface

/-- `containsSub` decides substring containment. -/
theorem containsSub_iff (pat s : List Char) :
    containsSub pat s = true ↔ pat <:+: s := by
  induction s with
  | nil => simp [containsSub, List.isEmpty_iff]
  | cons c rest ih =>
    simp [containsSub, Bool.or_eq_true, ih, List.infix_cons_iff,
      List.isPrefixOf_iff_prefix]

/-- A pattern occurs in the char-wise lowering of `e` exactly when some
window of `e` lowers to the pattern — "contains, case-insensitively". -/
theorem infix_map_lower (pat e : List Char) :
    pat <:+: e.map Char.toLower ↔
      ∃ w, w <:+: e ∧ w.map Char.toLower = pat := by
  constructor
  · rintro ⟨s, t, hst⟩
    have h2 : e.map Char.toLower = s ++ (pat ++ t) := by
      rw [← hst, List.append_assoc]
    rw [List.map_eq_append_iff] at h2
    obtain ⟨l1, l2, he, hl1, hl2⟩ := h2
    rw [List.map_eq_append_iff] at hl2
    obtain ⟨w, l3, hl2e, hw, hl3⟩ := hl2
    exact ⟨w, ⟨l1, l3, by rw [he, hl2e, List.append_assoc]⟩, hw⟩
  · rintro ⟨w, hw, rfl⟩
    exact hw.map Char.toLower

/-- The spec's classification of rate-limit conditions: the error text
contains the substring "429", or contains, case-insensitively, the
substring "rate". -/
def rate_limit_spec (e : List Char) : Prop :=
  "429".toList <:+: e ∨ ∃ w, w <:+: e ∧ w.map Char.toLower = "rate".toList

/-- C9: `is_rate_limit_error` classifies `e` as a rate-limit condition
exactly when the text representation of `e` contains "429" or contains,
case-insensitively, "rate". -/
theorem is_rate_limit_error_iff (e : List Char) :
    is_rate_limit_error e = true ↔ rate_limit_spec e := by
  rw [is_rate_limit_error, rate_limit_spec, Bool.or_eq_true,
    containsSub_iff, containsSub_iff, str_lower, infix_map_lower]

end LegalAgentInterface

/-- C10: each router returns its Arabic label ("arabic" resp. "ar")
exactly when the text contains a character in the Unicode range
U+0600–U+06FF, and its English label ("english" resp. "en") otherwise;
in particular the empty string is classified as English by both. -/
theorem detect_language_spec (text : List Char) :
    (KenAgentDraft.detect_language text = "arabic".toList ↔
      ∃ c ∈ text, '\u0600' ≤ c ∧ c ≤ '\u06FF') ∧
    (KenAgentDraft.detect_language text = "english".toList ↔
      ¬ ∃ c ∈ text, '\u0600' ≤ c ∧ c ≤ '\u06FF') ∧
    (KenAgentTranslation.detect_language text = "ar".toList ↔
      ∃ c ∈ text, '\u0600' ≤ c ∧ c ≤ '\u06FF') ∧
    (KenAgentTranslation.detect_language text = "en".toList ↔
      ¬ ∃ c ∈ text, '\u0600' ≤ c ∧ c ≤ '\u06FF') ∧
    KenAgentDraft.detect_language [] = "english".toList ∧
    KenAgentTranslation.detect_language [] = "en".toList := by
  have hiff : (text.any fun c =>
      decide ('\u0600' ≤ c) && decide (c ≤ '\u06FF')) = true ↔
      ∃ c ∈ text, '\u0600' ≤ c ∧ c ≤ '\u06FF' := by
    simp only [List.any_eq_true, Bool.and_eq_true, decide_eq_true_eq]
  cases hb : text.any fun c => decide ('\u0600' ≤ c) && decide (c ≤ '\u06FF') with
  | true =>
    have h := hiff.mp hb
    have hA : KenAgentDraft.detect_language text = "arabic".toList := by
      simp [KenAgentDraft.detect_language, hb]
    have hT : KenAgentTranslation.detect_language text = "ar".toList := by
      simp [KenAgentTranslation.detect_language, hb]
    refine ⟨iff_of_true hA h, iff_of_false ?_ (not_not_intro h),
      iff_of_true hT h, iff_of_false ?_ (not_not_intro h), by decide, by decide⟩
    · rw [hA]; decide
    · rw [hT]; decide
  | false =>
    have h : ¬ ∃ c ∈ text, '\u0600' ≤ c ∧ c ≤ '\u06FF' := fun hx => by
      rw [hiff.mpr hx] at hb
      cases hb
    have hA : KenAgentDraft.detect_language text = "english".toList := by
      simp [KenAgentDraft.detect_language, hb]
    have hT : KenAgentTranslation.detect_language text = "en".toList := by
      simp [KenAgentTranslation.detect_language, hb]
    refine ⟨iff_of_false ?_ h, iff_of_true hA h, iff_of_false ?_ h,
      iff_of_true hT h, by decide, by decide⟩
    · rw [hA]; decide
    · rw [hT]; decide
